import Mathlib

/-!
Verification of the `thingo` repository against its natural-language
specification.

Part 1 embeds `src/logger/log.go` (the zap-based logger wrapper):
levels, configuration state, `InitLogger`, the leveled logging entry
points, and `Recover`.

Part 2 models the worker-pool core described by the spec (workpool /
gqueue / work packages, whose Go sources are not present here): a
bounded FIFO queue, a fixed worker set, Running/Draining/Stopped
shutdown states, `Submit`, `Stop` and `Stats`.
-/

namespace Logger

/-- The seven zapcore levels, low to high, as listed in `levelMap`
(`src/logger/log.go` lines 22-30). `panicLevel` stands for
`zapcore.PanicLevel`. -/
inductive Level where
  | debug
  | info
  | warn
  | error
  | dpanic
  | panicLevel
  | fatal
deriving DecidableEq, Repr

/-- Numeric rank of a level, mirroring zapcore's ordering
(DebugLevel = -1, InfoLevel = 0, ...). A message at level `l` is written
by a core whose minimum level is `m` exactly when `m.rank ≤ l.rank`. -/
def Level.rank : Level → Int
  | .debug => -1
  | .info => 0
  | .warn => 1
  | .error => 2
  | .dpanic => 3
  | .panicLevel => 4
  | .fatal => 5

/-- A Go `interface{}` value as it appears in a log-field map: the
cases the logger actually receives (strings such as stack traces, and
arbitrary recovered panic values, here represented by string, integer
and boolean payloads). -/
inductive GoValue where
  | str (s : String)
  | intv (n : Int)
  | boolv (b : Bool)
deriving DecidableEq, Repr

/-- A structured zap field, the result of `zap.Any(key, value)`. -/
structure Field where
  key : String
  value : GoValue
deriving DecidableEq, Repr

/-- `levelMap` from `src/logger/log.go` lines 22-30: the string name of
each zapcore level. -/
def levelMap : List (String × Level) :=
  [("debug", .debug), ("info", .info), ("warn", .warn), ("error", .error),
   ("dpanic", .dpanic), ("panic", .panicLevel), ("fatal", .fatal)]

/-- The package-level configuration variables of `src/logger/log.go`
lines 32-43, with their Go initial values as defaults. -/
structure LoggerConfig where
  logMaxAge : Int := 7
  logMaxSize : Int := 512
  logCompress : Bool := false
  logTraceFileLine : Bool := true
  logLevel : String := "debug"
  logFileName : String := "go-zap.log"
  logDir : String := ""
deriving DecidableEq, Repr

/-- The configuration state at package initialisation. -/
def defaultLoggerConfig : LoggerConfig := {}

/-- `MaxAge` (`log.go` lines 46-48): sets the retention days. -/
def MaxAge (n : Int) (cfg : LoggerConfig) : LoggerConfig :=
  { cfg with logMaxAge := n }

/-- `MaxSize` (`log.go` lines 51-53): sets the rotation size in MB. -/
def MaxSize (n : Int) (cfg : LoggerConfig) : LoggerConfig :=
  { cfg with logMaxSize := n }

/-- `Compress` (`log.go` lines 56-58). -/
def Compress (b : Bool) (cfg : LoggerConfig) : LoggerConfig :=
  { cfg with logCompress := b }

/-- `TraceFileLine` (`log.go` lines 61-63). -/
def TraceFileLine (b : Bool) (cfg : LoggerConfig) : LoggerConfig :=
  { cfg with logTraceFileLine := b }

/-- `LogLevel` (`log.go` lines 66-68): records the minimum level name. -/
def LogLevel (lvl : String) (cfg : LoggerConfig) : LoggerConfig :=
  { cfg with logLevel := lvl }

/-- `SetLogFile` (`log.go` lines 71-77): an empty `name` keeps the
current `logFileName`; otherwise `logFileName` becomes `name`. -/
def SetLogFile (name : String) (cfg : LoggerConfig) : LoggerConfig :=
  if name = "" then cfg
  else { cfg with logFileName := name }

/-- `getLevel` (`log.go` lines 80-86): look the name up in `levelMap`,
falling back to `zapcore.InfoLevel` when it is absent. -/
def getLevel (lvl : String) : Level :=
  match levelMap.lookup lvl with
  | some level => level
  | none => .info

/-- Model of Go `os.TempDir()` as used by `initCore`. -/
def osTempDir : String := "/tmp"

/-- Model of `filepath.Join` on the two-argument calls in `initCore`. -/
def pathJoin (dir name : String) : String := dir ++ "/" ++ name

/-- The zapcore.Core built by `initCore` (`log.go` lines 119-150):
its minimum level and the lumberjack sink parameters. -/
structure Core where
  level : Level
  filename : String
  maxSizeMb : Int
  maxAgeDays : Int
  compress : Bool
deriving DecidableEq, Repr

/-- A `zap.Logger` as produced by `zap.New`: its core plus the options
the wrapper can pass. `InitLogger` never passes `zap.Development()`,
so `development` records whether that option was given (it decides
whether `DPanic` panics after writing). -/
structure ZapLogger where
  core : Core
  development : Bool
  addCaller : Bool
  callerSkip : Int
deriving DecidableEq, Repr

/-- The package-level mutable handles of `log.go` lines 17-19:
`fLogger *zap.Logger` and `core zapcore.Core`, both nil initially. -/
structure LoggerState where
  core : Option Core
  fLogger : Option ZapLogger
deriving DecidableEq, Repr

/-- The handle state at package initialisation: both pointers nil. -/
def initialLoggerState : LoggerState := ⟨none, none⟩

/-- `initCore` (`log.go` lines 119-150): joins `logFileName` onto
`logDir` (or the temp dir), mutating the `logFileName` variable, and
builds the core at level `getLevel logLevel`. -/
def initCore (cfg : LoggerConfig) : LoggerConfig × Core :=
  let fname :=
    if cfg.logDir = "" then pathJoin osTempDir cfg.logFileName
    else pathJoin cfg.logDir cfg.logFileName
  let cfg1 := { cfg with logFileName := fname }
  (cfg1,
   { level := getLevel cfg1.logLevel
     filename := fname
     maxSizeMb := cfg1.logMaxSize
     maxAgeDays := cfg1.logMaxAge
     compress := cfg1.logCompress })

/-- `InitLogger` (`log.go` lines 166-179): builds the core if absent,
then sets `fLogger` to `zap.New(core, AddCaller, AddCallerSkip skip[0])`
when `logTraceFileLine && len(skip) > 0 && skip[0] > 0`, and to
`zap.New(core)` otherwise. Neither call passes `zap.Development()`. -/
def InitLogger (skip : List Int) (cfg : LoggerConfig) (st : LoggerState) :
    LoggerConfig × LoggerState :=
  let built :=
    match st.core with
    | some c => (cfg, c)
    | none => initCore cfg
  let cfg1 := built.1
  let c := built.2
  let lg : ZapLogger :=
    match skip with
    | s0 :: _ =>
      if cfg1.logTraceFileLine ∧ 0 < s0 then
        { core := c, development := false, addCaller := true, callerSkip := s0 }
      else
        { core := c, development := false, addCaller := false, callerSkip := 0 }
    | [] => { core := c, development := false, addCaller := false, callerSkip := 0 }
  (cfg1, { core := some c, fLogger := some lg })

/-- `parseFields` (`log.go` lines 252-264): an empty map yields nil,
otherwise each `(k, v)` entry becomes `zap.Any(k, v)`. -/
def parseFields (fields : List (String × GoValue)) : List Field :=
  if fields.length = 0 then []
  else fields.map fun kv => { key := kv.1, value := kv.2 }

/-- How a call into the logger ends: returns normally, panics
(zap `Panic`, or `DPanic` in development mode), or exits the process
(zap `Fatal`). -/
inductive Outcome where
  | normal
  | panicked
  | exited
deriving DecidableEq, Repr

/-- One `(level, message, structured-fields)` invocation received by
the logging collaborator. -/
structure LogCall where
  level : Level
  msg : String
  fields : List Field
deriving DecidableEq, Repr

/-- The observable effect of one leveled logging call: the call made
into zap, the entries the core actually wrote (subject to its minimum
level), and how control returned. -/
structure LogOutput where
  calls : List LogCall
  entries : List LogCall
  outcome : Outcome
deriving DecidableEq, Repr

/-- Semantics of a `zap.Logger` method at level `l`: the call is always
received; an entry is written when the core's level enables `l`;
`Panic` always panics, `Fatal` always exits, and `DPanic` panics only
when the logger was built in development mode. -/
def ZapLogger.log (lg : ZapLogger) (l : Level) (msg : String)
    (fs : List Field) : LogOutput :=
  { calls := [{ level := l, msg := msg, fields := fs }]
    entries :=
      if lg.core.level.rank ≤ l.rank then [{ level := l, msg := msg, fields := fs }]
      else []
    outcome :=
      match l with
      | .panicLevel => .panicked
      | .fatal => .exited
      | .dpanic => if lg.development then .panicked else .normal
      | _ => .normal }

/-- A Go runtime fault raised by the wrapper itself: dereferencing the
nil `fLogger` handle. -/
inductive GoFault where
  | nilPointerDeref
deriving DecidableEq, Repr

/-- `Info` (`log.go` lines 205-208): parse the fields, then call
`fLogger.Info`; faults when `fLogger` is nil. -/
def Info (msg : String) (options : List (String × GoValue))
    (st : LoggerState) : Except GoFault LogOutput :=
  match st.fLogger with
  | none => .error .nilPointerDeref
  | some lg => .ok (lg.log .info msg (parseFields options))

/-- `Warn` (`log.go` lines 211-214). -/
def Warn (msg : String) (options : List (String × GoValue))
    (st : LoggerState) : Except GoFault LogOutput :=
  match st.fLogger with
  | none => .error .nilPointerDeref
  | some lg => .ok (lg.log .warn msg (parseFields options))

/-- `Error` (`log.go` lines 217-220). -/
def Error (msg : String) (options : List (String × GoValue))
    (st : LoggerState) : Except GoFault LogOutput :=
  match st.fLogger with
  | none => .error .nilPointerDeref
  | some lg => .ok (lg.log .error msg (parseFields options))

/-- `DPanic` (`log.go` lines 223-226). -/
def DPanic (msg : String) (options : List (String × GoValue))
    (st : LoggerState) : Except GoFault LogOutput :=
  match st.fLogger with
  | none => .error .nilPointerDeref
  | some lg => .ok (lg.log .dpanic msg (parseFields options))

/-- `Panic` (`log.go` lines 230-233). -/
def Panic (msg : String) (options : List (String × GoValue))
    (st : LoggerState) : Except GoFault LogOutput :=
  match st.fLogger with
  | none => .error .nilPointerDeref
  | some lg => .ok (lg.log .panicLevel msg (parseFields options))

/-- `Fatal` (`log.go` lines 236-239). -/
def Fatal (msg : String) (options : List (String × GoValue))
    (st : LoggerState) : Except GoFault LogOutput :=
  match st.fLogger with
  | none => .error .nilPointerDeref
  | some lg => .ok (lg.log .fatal msg (parseFields options))

/-- The result of running `Recover` in a deferred position:
the logging effect plus whether an in-flight panic was consumed. -/
structure RecoverOut where
  calls : List LogCall
  entries : List LogCall
  outcome : Outcome
  recovered : Bool
deriving DecidableEq, Repr

/-- `Recover` (`log.go` lines 242-249). `panicVal` is what Go
`recover()` returns: `some err` while a panic is unwinding, `none`
otherwise; `stack` is `string(debug.Stack())`. When a panic is active
it is consumed and `DPanic "exec panic"` is called with the fields
`error ↦ err` and `error_trace ↦ stack`; otherwise nothing happens. -/
def Recover (panicVal : Option GoValue) (stack : String)
    (st : LoggerState) : Except GoFault RecoverOut :=
  match panicVal with
  | none => .ok { calls := [], entries := [], outcome := .normal, recovered := false }
  | some err =>
    match DPanic "exec panic" [("error", err), ("error_trace", .str stack)] st with
    | .error f => .error f
    | .ok out =>
      .ok { calls := out.calls, entries := out.entries,
            outcome := out.outcome, recovered := true }

end Logger

namespace Workpool

/-- Modelled from the spec: the pool lifecycle states of §4.4 of the
spec for the worker-pool core (workpool/gqueue/work packages, whose Go
sources are not included here): `Running` is initial, `Stop` moves the
pool through `Draining` (graceful keeps the queue, immediate discards
it) to the terminal `Stopped`. -/
inductive PState where
  | running
  | draining (graceful : Bool)
  | stopped
deriving DecidableEq, Repr

/-- Modelled from the spec: the pool of §3/§4.3. Tasks are identified
by natural numbers; `queue` is the bounded FIFO buffer of accepted,
not-yet-started tasks; `active` lists the tasks workers are currently
executing, oldest first; `executed` logs completed tasks in the order
the workers took them. -/
structure Pool where
  workerCount : Nat
  capacity : Nat
  pstate : PState
  queue : List Nat
  active : List Nat
  executed : List Nat
deriving DecidableEq, Repr

/-- Modelled from the spec: `New(workerCount, queueCapacity, policy)`
of §4.3 — workers started and idle, queue empty, state `Running`. -/
def initPool (wc cap : Nat) : Pool :=
  { workerCount := wc, capacity := cap, pstate := .running,
    queue := [], active := [], executed := [] }

/-- Modelled from the spec: the submission outcomes of §6
(`nil | QueueFull | Timeout | PoolClosed`; the timeout policy is not
exercised by the claims). -/
inductive SubmitResult where
  | ok
  | queueFull
  | poolClosed
deriving DecidableEq, Repr

/-- Modelled from the spec: the `Stop` outcomes of §6; the optional
caller timeout (`ShutdownTimeout`) is not exercised by the claims. -/
inductive StopOutcome where
  | stopped
deriving DecidableEq, Repr

/-- Modelled from the spec: `Submit` of §4.3/§4.1. Fails with
`PoolClosed` when the state is not `Running`; otherwise the task is
handed directly to an idle worker when no task is queued ahead of it
(the synchronous hand-off of §8's boundary case), or appended to the
queue while it has room, and rejected with `QueueFull` once both are
exhausted (the non-blocking regime). -/
def submit (p : Pool) (t : Nat) : SubmitResult × Pool :=
  if p.pstate ≠ .running then (.poolClosed, p)
  else if p.queue = [] ∧ p.active.length < p.workerCount then
    (.ok, { p with active := p.active ++ [t] })
  else if p.queue.length < p.capacity then
    (.ok, { p with queue := p.queue ++ [t] })
  else (.queueFull, p)

/-- Modelled from the spec: submit a batch of tasks in order from one
submitter, keeping only the pool (each call's result is recoverable
from `submit`). -/
def submitAll (p : Pool) (ts : List Nat) : Pool :=
  ts.foldl (fun q t => (submit q t).2) p

/-- Modelled from the spec: the worker loop of §4.2 consuming the
queue FIFO — each task is taken from the head and executed exactly
once; a `Stopped` pool dequeues nothing (§3 invariant). Returns the
completed-task log and the remaining queue. -/
def workLoop (st : PState) : List Nat → List Nat → List Nat × List Nat
  | q, execed =>
    match q with
    | [] => (execed, [])
    | t :: rest =>
      if st = .stopped then (execed, t :: rest)
      else workLoop st rest (execed ++ [t])

/-- Modelled from the spec: awaiting drain — every worker finishes its
current task, then the workers consume the queue until it is empty. -/
def drainPool (p : Pool) : Pool :=
  let finished := p.executed ++ p.active
  let res := workLoop p.pstate p.queue finished
  { p with active := [], executed := res.1, queue := res.2 }

/-- Modelled from the spec: `Stop(graceful)` of §4.4. A pool already
`Stopped` returns at once with the completed transition's outcome and
no second drain. Otherwise the state moves to `Draining` — immediate
mode discards the queued tasks, graceful mode keeps them — the drain
runs to completion, and the state becomes `Stopped`. -/
def stop (p : Pool) (graceful : Bool) : StopOutcome × Pool :=
  if p.pstate = .stopped then (.stopped, p)
  else
    let p1 :=
      if graceful then { p with pstate := .draining true }
      else { p with pstate := .draining false, queue := [] }
    let p2 := drainPool p1
    (.stopped, { p2 with pstate := .stopped })

/-- Modelled from the spec: the `Stats()` snapshot of §4.3 —
`pending` is the queue length, `active` the number of workers
currently executing a task. -/
structure Stats where
  pending : Nat
  active : Nat
  workerCount : Nat
deriving DecidableEq, Repr

/-- Modelled from the spec: `Stats()`. -/
def stats (p : Pool) : Stats :=
  { pending := p.queue.length, active := p.active.length,
    workerCount := p.workerCount }

/-- Modelled from the spec: the atomic transitions of the concurrent
pool of §4/§5, as a small-step relation. `submitQueued`/`handoff` are
the accepting `Submit` paths, `start` is a worker dequeuing the head,
`finish` is any executing worker completing (in any order), the `stop`
steps begin shutdown, and `drainDone` closes the terminal transition
once the queue is empty and every worker is idle. -/
inductive Step : Pool → Pool → Prop where
  | submitQueued (p : Pool) (t : Nat) :
      p.pstate = .running → p.queue.length < p.capacity →
      Step p { p with queue := p.queue ++ [t] }
  | handoff (p : Pool) (t : Nat) :
      p.pstate = .running → p.queue = [] →
      p.active.length < p.workerCount →
      Step p { p with active := p.active ++ [t] }
  | start (p : Pool) (t : Nat) (rest : List Nat) :
      p.pstate ≠ .stopped → p.active.length < p.workerCount →
      p.queue = t :: rest →
      Step p { p with queue := rest, active := p.active ++ [t] }
  | finish (p : Pool) (t : Nat) (l1 l2 : List Nat) :
      p.active = l1 ++ t :: l2 →
      Step p { p with active := l1 ++ l2, executed := p.executed ++ [t] }
  | stopGraceful (p : Pool) :
      p.pstate = .running → Step p { p with pstate := .draining true }
  | stopImmediate (p : Pool) :
      p.pstate = .running →
      Step p { p with pstate := .draining false, queue := [] }
  | drainDone (p : Pool) (g : Bool) :
      p.pstate = .draining g → p.queue = [] → p.active = [] →
      Step p { p with pstate := .stopped }

/-- Modelled from the spec: the pool states reachable from a freshly
constructed pool by the atomic transitions. -/
inductive Reachable (wc cap : Nat) : Pool → Prop where
  | init : Reachable wc cap (initPool wc cap)
  | step {p q : Pool} : Reachable wc cap p → Step p q → Reachable wc cap q

end Workpool

/-- A concrete logger handle, as `InitLogger` builds it from the default
configuration, used to instantiate theorems with hypotheses. -/
def sampleZapLogger : Logger.ZapLogger :=
  { core :=
      { level := .debug, filename := "/tmp/go-zap.log",
        maxSizeMb := 512, maxAgeDays := 7, compress := false },
    development := false, addCaller := false, callerSkip := 0 }

/-- A logger package state whose `fLogger` handle is set. -/
def sampleLoggerState : Logger.LoggerState := ⟨none, some sampleZapLogger⟩

/-- A concrete running pool with completed, executing and queued tasks,
used to instantiate theorems with hypotheses. -/
def samplePool : Workpool.Pool :=
  { workerCount := 2, capacity := 3, pstate := .running,
    queue := [7, 8], active := [5], executed := [1] }

section LoggerTheorems

open Logger

/-- Auxiliary: whatever `skip`, `InitLogger` builds the logger without
`zap.Development()`, so its `development` flag is off. -/
theorem initLogger_fLogger_not_development (skip : List Int)
    (cfg : LoggerConfig) (st : LoggerState) :
    ∃ lg, (InitLogger skip cfg st).2.fLogger = some lg ∧
      lg.development = false := by
  unfold InitLogger
  rcases hc : st.core with _ | c <;> rcases skip with _ | ⟨s0, rest⟩ <;>
      simp only [hc] <;> (try split) <;> exact ⟨_, rfl, rfl⟩

/-- C1: when `Recover` runs while a panic is unwinding (`recover()`
returns the panic value), the panic is consumed and exactly one log
call is made, at DPanic level, with message "exec panic" and fields
binding key "error" to the recovered value and key "error_trace" to the
stack trace; when no panic is active, no log call is made. -/
theorem recover_logs_exec_panic (st : LoggerState) (lg : ZapLogger)
    (h : st.fLogger = some lg) (err : GoValue) (stack : String) :
    Recover none stack st =
      .ok { calls := [], entries := [], outcome := .normal, recovered := false } ∧
    ∃ out, Recover (some err) stack st = .ok out ∧
      out.recovered = true ∧
      out.calls = [{ level := .dpanic, msg := "exec panic",
                     fields := [⟨"error", err⟩, ⟨"error_trace", .str stack⟩] }] := by
  refine ⟨rfl, ?_⟩
  simp only [Recover, DPanic, h]
  exact ⟨_, rfl, rfl, by simp [ZapLogger.log, parseFields]⟩

/-- Witness for C1 at a concrete state, panic value and stack trace. -/
theorem recover_logs_exec_panic_witness :
    Recover none "stack dump" sampleLoggerState =
      .ok { calls := [], entries := [], outcome := .normal, recovered := false } ∧
    ∃ out, Recover (some (.intv 42)) "stack dump" sampleLoggerState = .ok out ∧
      out.recovered = true ∧
      out.calls = [{ level := .dpanic, msg := "exec panic",
                     fields := [⟨"error", .intv 42⟩,
                                ⟨"error_trace", .str "stack dump"⟩] }] :=
  recover_logs_exec_panic sampleLoggerState sampleZapLogger rfl (.intv 42) "stack dump"

/-- C2: on a logger built by `InitLogger` (which never passes
`zap.Development()`), `Recover` consumes the panic and the `DPanic`
call returns normally — the fault does not propagate further. -/
theorem recover_does_not_repanic (skip : List Int) (cfg : LoggerConfig)
    (st : LoggerState) (err : GoValue) (stack : String) :
    ∃ out, Recover (some err) stack (InitLogger skip cfg st).2 = .ok out ∧
      out.outcome = .normal ∧ out.recovered = true := by
  obtain ⟨lg, hfl, hdev⟩ := initLogger_fLogger_not_development skip cfg st
  simp only [Recover, DPanic, hfl]
  exact ⟨_, rfl, by simp [ZapLogger.log, hdev], rfl⟩

/-- C8: each leveled entry point dereferences the package-level
`fLogger` handle, so calling any of them in the initial state (before
`InitLogger`) faults on the nil pointer; after any `InitLogger` call
the handle is set and every entry point returns without faulting. -/
theorem log_calls_before_init_fault :
    (∀ msg opts, Info msg opts initialLoggerState = .error .nilPointerDeref) ∧
    (∀ msg opts, Warn msg opts initialLoggerState = .error .nilPointerDeref) ∧
    (∀ msg opts, Error msg opts initialLoggerState = .error .nilPointerDeref) ∧
    (∀ msg opts, DPanic msg opts initialLoggerState = .error .nilPointerDeref) ∧
    (∀ msg opts, Panic msg opts initialLoggerState = .error .nilPointerDeref) ∧
    (∀ msg opts, Fatal msg opts initialLoggerState = .error .nilPointerDeref) ∧
    (∀ skip cfg st, ((InitLogger skip cfg st).2.fLogger).isSome = true) ∧
    (∀ skip cfg st msg opts,
      (∃ o, Info msg opts (InitLogger skip cfg st).2 = .ok o) ∧
      (∃ o, Warn msg opts (InitLogger skip cfg st).2 = .ok o) ∧
      (∃ o, Error msg opts (InitLogger skip cfg st).2 = .ok o) ∧
      (∃ o, DPanic msg opts (InitLogger skip cfg st).2 = .ok o) ∧
      (∃ o, Panic msg opts (InitLogger skip cfg st).2 = .ok o) ∧
      (∃ o, Fatal msg opts (InitLogger skip cfg st).2 = .ok o)) := by
  refine ⟨fun _ _ => rfl, fun _ _ => rfl, fun _ _ => rfl, fun _ _ => rfl,
    fun _ _ => rfl, fun _ _ => rfl, fun _ _ _ => rfl, fun skip cfg st msg opts => ?_⟩
  exact ⟨⟨_, rfl⟩, ⟨_, rfl⟩, ⟨_, rfl⟩, ⟨_, rfl⟩, ⟨_, rfl⟩, ⟨_, rfl⟩⟩

/-- C9: `getLevel` maps each of the seven level names to its zapcore
level and every unrecognised name to InfoLevel; hence a configuration
whose level was set through `LogLevel` to an unrecognised name yields a
core initialised at info level. -/
theorem getLevel_total_with_default :
    getLevel "debug" = .debug ∧ getLevel "info" = .info ∧
    getLevel "warn" = .warn ∧ getLevel "error" = .error ∧
    getLevel "dpanic" = .dpanic ∧ getLevel "panic" = .panicLevel ∧
    getLevel "fatal" = .fatal ∧
    (∀ s, levelMap.lookup s = none → getLevel s = .info) ∧
    (∀ cfg s, levelMap.lookup s = none →
      (initCore (LogLevel s cfg)).2.level = .info) := by
  refine ⟨by decide, by decide, by decide, by decide, by decide, by decide,
    by decide, fun s hs => ?_, fun cfg s hs => ?_⟩
  · simp [getLevel, hs]
  · simp [initCore, LogLevel, getLevel, hs]

/-- Witness for C9 on the unrecognised level name "verbose". -/
theorem getLevel_total_with_default_witness :
    getLevel "verbose" = .info ∧
    (initCore (LogLevel "verbose" defaultLoggerConfig)).2.level = .info :=
  ⟨getLevel_total_with_default.2.2.2.2.2.2.2.1 "verbose" (by decide),
   getLevel_total_with_default.2.2.2.2.2.2.2.2 defaultLoggerConfig "verbose" (by decide)⟩

/-- C10: `SetLogFile ""` is the identity on the configuration, and
`SetLogFile name` for non-empty `name` sets exactly `logFileName` to
`name`, leaving every other configuration variable unchanged. -/
theorem setLogFile_frame (cfg : LoggerConfig) (name : String) :
    SetLogFile "" cfg = cfg ∧
    (name ≠ "" →
      (SetLogFile name cfg).logFileName = name ∧
      (SetLogFile name cfg).logMaxAge = cfg.logMaxAge ∧
      (SetLogFile name cfg).logMaxSize = cfg.logMaxSize ∧
      (SetLogFile name cfg).logCompress = cfg.logCompress ∧
      (SetLogFile name cfg).logTraceFileLine = cfg.logTraceFileLine ∧
      (SetLogFile name cfg).logLevel = cfg.logLevel ∧
      (SetLogFile name cfg).logDir = cfg.logDir) := by
  refine ⟨by simp [SetLogFile], fun h => ?_⟩
  simp [SetLogFile, h]

/-- Witness for C10 on the non-empty file name "app.log". -/
theorem setLogFile_frame_witness :
    SetLogFile "" defaultLoggerConfig = defaultLoggerConfig ∧
    (SetLogFile "app.log" defaultLoggerConfig).logFileName = "app.log" :=
  ⟨(setLogFile_frame defaultLoggerConfig "app.log").1,
   ((setLogFile_frame defaultLoggerConfig "app.log").2 (by decide)).1⟩

end LoggerTheorems

section WorkpoolTheorems

open Workpool

/-- Auxiliary: while the pool is not stopped, the worker loop consumes
the whole queue in FIFO order. -/
theorem workLoop_runs_all (st : PState) (h : st ≠ .stopped) :
    ∀ q execed, workLoop st q execed = (execed ++ q, []) := by
  intro q
  induction q with
  | nil => intro e; simp [workLoop]
  | cons t rest ih =>
    intro e
    simp [workLoop, h, ih (e ++ [t])]

/-- Auxiliary: draining a pool that is not stopped finishes the active
tasks, then the queued ones, in order. -/
theorem drainPool_not_stopped (p : Pool) (h : p.pstate ≠ .stopped) :
    drainPool p =
      { p with active := [], queue := [],
               executed := p.executed ++ p.active ++ p.queue } := by
  simp [drainPool, workLoop_runs_all p.pstate h, List.append_assoc]

/-- Auxiliary: submitting a batch into a running pool whose accepted
load fits in `workerCount + capacity` (with a full worker set whenever
tasks are queued) accepts every task, and the subsequent drain executes
the earlier work and then the batch, in order. -/
theorem submitAll_drain (ts : List Nat) :
    ∀ p : Pool, p.pstate = .running →
      p.active.length ≤ p.workerCount →
      (p.queue = [] ∨ p.active.length = p.workerCount) →
      ts.length + p.active.length + p.queue.length ≤ p.workerCount + p.capacity →
      (drainPool (submitAll p ts)).executed =
        p.executed ++ p.active ++ p.queue ++ ts := by
  induction ts with
  | nil =>
    intro p hrun hle hinv hcap
    have hne : p.pstate ≠ .stopped := by rw [hrun]; exact fun hx => nomatch hx
    simp [submitAll, drainPool_not_stopped p hne]
  | cons t rest ih =>
    intro p hrun hle hinv hcap
    have hstep : submitAll p (t :: rest) = submitAll (submit p t).2 rest := rfl
    by_cases hq : p.queue = [] ∧ p.active.length < p.workerCount
    · have hsub : (submit p t).2 = { p with active := p.active ++ [t] } := by
        simp [submit, hrun, hq]
      have := ih { p with active := p.active ++ [t] } hrun
        (by simpa using hq.2) (Or.inl hq.1)
        (by simp only [List.length_cons, List.length_append, List.length_nil] at hcap ⊢
            omega)
      rw [hstep, hsub, this]
      simp [hq.1]
    · have ha : p.active.length = p.workerCount := by
        rcases hinv with h1 | h2
        · rcases not_and_or.mp hq with hx | hx
          · exact absurd h1 hx
          · omega
        · exact h2
      have hroom : p.queue.length < p.capacity := by
        simp only [List.length_cons] at hcap
        omega
      have hsub : (submit p t).2 = { p with queue := p.queue ++ [t] } := by
        simp [submit, hrun, hq, hroom]
      have := ih { p with queue := p.queue ++ [t] } hrun ha.le (Or.inr ha)
        (by simp only [List.length_cons, List.length_append, List.length_nil] at hcap ⊢
            omega)
      rw [hstep, hsub, this]
      simp

/-- C3: for `workerCount ≥ 1` and any `queueCapacity`, submitting `N`
tasks with `N ≤ queueCapacity + workerCount` (the non-blocking regime)
into a fresh pool and awaiting drain executes every submitted action
exactly once, in submission order. -/
theorem pool_executes_all_in_order (wc cap : Nat) (ts : List Nat)
    (_hwc : 1 ≤ wc) (hn : ts.length ≤ cap + wc) :
    (drainPool (submitAll (initPool wc cap) ts)).executed = ts := by
  have h := submitAll_drain ts (initPool wc cap) rfl
    (by simp [initPool]) (Or.inl rfl)
    (by simp only [initPool, List.length_nil]; omega)
  simpa [initPool] using h

/-- Witness for C3 with two workers, queue capacity one and three
tasks. -/
theorem pool_executes_all_in_order_witness :
    (drainPool (submitAll (initPool 2 1) [10, 20, 30])).executed =
      [10, 20, 30] :=
  pool_executes_all_in_order 2 1 [10, 20, 30] (by decide) (by decide)

/-- C4: `Stop(graceful := true)` on a running pool reports `Stopped`,
every task accepted before the call (completed, executing or queued)
has executed when it returns, and `Stats().pending = 0` at that
moment. -/
theorem stop_graceful_drains (p : Pool) (h : p.pstate = .running) :
    (stop p true).1 = .stopped ∧
    (stats (stop p true).2).pending = 0 ∧
    (stop p true).2.executed = p.executed ++ p.active ++ p.queue ∧
    ∀ t, (t ∈ p.executed ∨ t ∈ p.active ∨ t ∈ p.queue) →
      t ∈ (stop p true).2.executed := by
  have hne : p.pstate ≠ .stopped := by rw [h]; exact fun hx => nomatch hx
  have hd := drainPool_not_stopped { p with pstate := PState.draining true }
    (by exact fun hx => nomatch hx)
  refine ⟨?_, ?_, ?_, ?_⟩ <;>
    simp [stop, hne, hd, stats, List.mem_append]

/-- Witness for C4 on a concrete running pool. -/
theorem stop_graceful_drains_witness :
    (stop samplePool true).1 = .stopped ∧
    (stats (stop samplePool true).2).pending = 0 ∧
    (stop samplePool true).2.executed =
      samplePool.executed ++ samplePool.active ++ samplePool.queue :=
  ⟨(stop_graceful_drains samplePool rfl).1,
   (stop_graceful_drains samplePool rfl).2.1,
   (stop_graceful_drains samplePool rfl).2.2.1⟩

/-- Auxiliary: whatever state the pool was in, `stop` leaves it in the
terminal `Stopped` state. -/
theorem stop_pstate (p : Pool) (g : Bool) : (stop p g).2.pstate = .stopped := by
  by_cases h : p.pstate = .stopped
  · simp [stop, h]
  · cases g <;> simp [stop, h, drainPool]

/-- C5: every `Submit` made after `Stop(graceful := false)` returns
`PoolClosed` and leaves the pool — in particular its executed-task log
and its queue — unchanged, so the rejected task is never executed. -/
theorem submit_after_immediate_stop_rejected (p : Pool) (t : Nat) :
    (stop p false).2.pstate = .stopped ∧
    submit (stop p false).2 t = (.poolClosed, (stop p false).2) := by
  have h1 := stop_pstate p false
  refine ⟨h1, ?_⟩
  simp [submit, h1]

/-- C7: `Stop` is idempotent — a second call (in either mode) observes
the completed transition of the first, returns its outcome, and starts
no second drain: the pool is returned unchanged. -/
theorem stop_idempotent (p : Pool) (g g2 : Bool) :
    stop (stop p g).2 g2 = ((stop p g).1, (stop p g).2) := by
  have h2 : (stop p g).1 = .stopped := by cases hx : (stop p g).1; rfl
  have key : ∀ q : Pool, q.pstate = .stopped → stop q g2 = (.stopped, q) := by
    intro q hq
    simp [stop, hq]
  rw [h2]
  exact key _ (stop_pstate p g)

/-- Auxiliary: the step invariant — the number of executing tasks never
exceeds `workerCount`, and a stopped pool has an empty queue and no
executing task. -/
theorem reachable_invariant (wc cap : Nat) (p : Pool)
    (h : Reachable wc cap p) :
    p.active.length ≤ p.workerCount ∧
    (p.pstate = .stopped → p.queue = [] ∧ p.active = []) := by
  induction h with
  | init => simp [initPool]
  | step hr hs ih =>
    rcases hs with ⟨t, hrun, hroom⟩ | ⟨t, hrun, hq, hlt⟩ |
      ⟨t, rest, hns, hlt, hq⟩ | ⟨t, l1, l2, hact⟩ |
      ⟨hrun⟩ | ⟨hrun⟩ | ⟨g, hdr, hq, hact⟩
    · exact ⟨ih.1, fun hx => nomatch hrun ▸ hx⟩
    · refine ⟨by simpa using hlt, fun hx => nomatch hrun ▸ hx⟩
    · exact ⟨by simpa using hlt, fun hx => absurd hx hns⟩
    · refine ⟨?_, fun hx => ?_⟩
      · have := ih.1
        rw [hact] at this
        simp only [List.length_append, List.length_cons] at this ⊢
        omega
      · have := (ih.2 hx).2
        rw [hact] at this
        exact absurd this (by simp)
    · exact ⟨ih.1, fun hx => nomatch hx⟩
    · exact ⟨ih.1, fun hx => nomatch hx⟩
    · exact ⟨ih.1, fun _ => ⟨hq, hact⟩⟩

/-- Auxiliary: no transition leaves a stopped, drained pool — nothing
is submitted, dequeued, started or finished there. -/
theorem no_step_of_stopped (p : Pool) (hst : p.pstate = .stopped)
    (hq : p.queue = []) (ha : p.active = []) :
    ∀ q, ¬ Step p q := by
  intro q hstep
  rcases hstep with ⟨t, hrun, _⟩ | ⟨t, hrun, _, _⟩ |
    ⟨t, rest, hns, _, hqe⟩ | ⟨t, l1, l2, hact⟩ |
    ⟨hrun⟩ | ⟨hrun⟩ | ⟨g, hdr, _, _⟩
  · exact nomatch hst ▸ hrun
  · exact nomatch hst ▸ hrun
  · rw [hq] at hqe; exact nomatch hqe
  · rw [ha] at hact; exact (List.cons_ne_nil t l2 (List.append_eq_nil.mp hact.symm).2).elim
  · exact nomatch hst ▸ hrun
  · exact nomatch hst ▸ hrun
  · exact nomatch hst ▸ hdr

/-- C6: in every reachable pool state the number of workers executing
a task is at most `workerCount`, and once the state is `Stopped` no
transition — in particular no dequeue and no task start — is possible
any more. -/
theorem pool_active_bounded_and_stopped_final (wc cap : Nat) (p : Pool)
    (h : Reachable wc cap p) :
    (stats p).active ≤ p.workerCount ∧
    (p.pstate = .stopped → ∀ q, ¬ Step p q) := by
  obtain ⟨h1, h2⟩ := reachable_invariant wc cap p h
  exact ⟨h1, fun hst => no_step_of_stopped p hst (h2 hst).1 (h2 hst).2⟩

/-- Witness for C6 at a freshly constructed pool. -/
theorem pool_active_bounded_and_stopped_final_witness :
    (stats (initPool 2 3)).active ≤ (initPool 2 3).workerCount :=
  (pool_active_bounded_and_stopped_final 2 3 (initPool 2 3) Reachable.init).1

end WorkpoolTheorems
